import Mathlib

/-!
  Verification of the canvas schedule rendering engine
  (src/utils/canvasRenderer.ts and src/utils/dateFormatting.ts).

  Numeric quantities are modelled over the rationals (the source computes
  with JavaScript numbers; all formulas here mirror the source expressions
  exactly, viewed as exact arithmetic).  Canvas text measurement is modelled
  by an arbitrary measure function passed explicitly (the source reads it
  from the 2d context after setting the font; both the sizing pre-pass and
  the painting loop set the same title font before wrapping, so a single
  measure function is faithful).  JavaScript string truthiness (null,
  undefined and the empty string are falsy) is modelled explicitly.
-/

/-- Character helpers.  JS split and regexes work on code units; inputs here
are plain ASCII dates and words, modelled at the Char level. -/
def spaceChar : Char := Char.ofNat 32

def tabChar : Char := Char.ofNat 9

def lfChar : Char := Char.ofNat 10

def crChar : Char := Char.ofNat 13

/-- JS whitespace class membership as used by the patterns in
dateFormatting.ts (space, tab, newline, carriage return). -/
def isJsWhitespace (c : Char) : Bool :=
  c == spaceChar || c == tabChar || c == lfChar || c == crChar

/-- JS String.prototype.trim: drop whitespace from both ends. -/
def jsTrim (l : List Char) : List Char :=
  ((l.dropWhile isJsWhitespace).reverse.dropWhile isJsWhitespace).reverse

/-- JS String.prototype.split with a single separator character: split at
every occurrence, keeping empty segments (so " ".split(' ') = ["", ""]). -/
def splitOnChar (sep : Char) : List Char → List (List Char)
  | [] => [[]]
  | c :: rest =>
    match splitOnChar sep rest with
    | [] => [[]]
    | w :: ws => if c == sep then [] :: w :: ws else (c :: w) :: ws

/-- The word list `text.split(' ')` of canvasRenderer.ts line 120. -/
def jsWords (text : String) : List String :=
  (splitOnChar spaceChar text.toList).map (fun w => String.mk w)

-- ============================================================
-- Typography and layout constants (canvasRenderer.ts lines 40-69)
-- ============================================================

namespace TYPOGRAPHY

def baseSize : ℚ := 16

def titleSize : ℚ := 56

def subtitleSize : ℚ := 42

def eventTitleSize : ℚ := 44

def eventMetaSize : ℚ := 32

def footerSize : ℚ := 12

end TYPOGRAPHY

namespace LAYOUT

def canvasWidth : ℚ := 1080

def canvasHeight : ℚ := 1350

def eventImageWidth : ℚ := 130

def eventImageHeight : ℚ := 182

def eventImageGap : ℚ := 8

def avatarSize : ℚ := 110

def footerHeight : ℚ := 30

end LAYOUT

/-- Math.max on exact rationals (for comparable a b it returns the larger
argument; writing it as an if keeps it kernel-computable). -/
def jsMax (a b : ℚ) : ℚ :=
  if a ≤ b then b else a

/-- calculateFitScale (canvasRenderer.ts lines 76-78):
Math.max(0.95 - (eventCount - 1) * 0.06, 0.5). -/
def calculateFitScale (eventCount : ℤ) : ℚ :=
  jsMax (0.95 - ((eventCount : ℚ) - 1) * 0.06) 0.5

/-- scaleDimension (canvasRenderer.ts lines 83-85): value * fitScale *
pixelRatio; every call site modelled here uses the default pixelRatio = 1,
so the factor is omitted. -/
def scaleDimension (value fitScale : ℚ) : ℚ :=
  value * fitScale

-- ============================================================
-- wrapText (canvasRenderer.ts lines 115-141)
-- ============================================================

/-- The loop body of wrapText: fold over the word list, carrying the
current line and the committed lines, exactly as in the source. -/
def wrapLoop (measure : String → ℚ) (maxWidth : ℚ) :
    List String → String → List String → List String
  | [], currentLine, lines =>
    if currentLine = "" then lines else lines ++ [currentLine]
  | word :: rest, currentLine, lines =>
    let testLine := if currentLine = "" then word else currentLine ++ " " ++ word
    if maxWidth < measure testLine ∧ currentLine ≠ "" then
      wrapLoop measure maxWidth rest word (lines ++ [currentLine])
    else
      wrapLoop measure maxWidth rest testLine lines

/-- wrapText: split on single spaces, then run the greedy accumulation
loop.  The 2d-context text measurement is the explicit measure argument. -/
def wrapText (measure : String → ℚ) (text : String) (maxWidth : ℚ) : List String :=
  wrapLoop measure maxWidth (jsWords text) "" []

-- ============================================================
-- dateFormatting.ts
-- ============================================================

/-- Test for the regex fragment \d{1,2}:\d{2} matching at the head of a
character list (used anchored in extractDatePart, and as the head test of
the fallback /^\d{1,2}:\d{2}/ on a word).  The quantifier {1,2} is greedy
with backtracking; since a digit can never equal the colon, the match
exists exactly when one of the two digit-count alternatives fits. -/
def startsWithTime (l : List Char) : Bool :=
  match l with
  | c1 :: c2 :: c3 :: c4 :: c5 :: _ =>
    (c1.isDigit && c2.isDigit && c3 == ':' && c4.isDigit && c5.isDigit) ||
    (c1.isDigit && c2 == ':' && c3.isDigit && c4.isDigit)
  | [c1, c2, c3, c4] => c1.isDigit && c2 == ':' && c3.isDigit && c4.isDigit
  | _ => false

/-- Test for \s+\d{1,2}:\d{2} at the head of a character list: at least one
whitespace character, then a time token.  \s+ is greedy; digits are not
whitespace, so consuming all leading whitespace is equivalent. -/
def wsThenTime (l : List Char) : Bool :=
  match l with
  | c :: _ => isJsWhitespace c && startsWithTime (l.dropWhile isJsWhitespace)
  | [] => false

/-- The lazy capture group of /^(.*?)\s+\d{1,2}:\d{2}/ (dateFormatting.ts
line 492): the shortest prefix (containing no line terminator, since the
dot class excludes them) whose following suffix starts with whitespace and
a time token.  acc carries the reversed prefix consumed so far. -/
def findLazySplit (acc : List Char) (l : List Char) : Option (List Char) :=
  if wsThenTime l then some acc.reverse
  else
    match l with
    | [] => none
    | c :: rest =>
      if c == lfChar || c == crChar then none else findLazySplit (c :: acc) rest

/-- extractDatePart (dateFormatting.ts lines 489-507).  The unused format
parameter is kept for signature fidelity. -/
def extractDatePart (dateString : String) (format : String) : String :=
  match findLazySplit [] dateString.toList with
  | some g => String.mk (jsTrim g)
  | none =>
    let parts := splitOnChar spaceChar dateString.toList
    match parts.findIdx? (fun p => startsWithTime p) with
    | some i =>
      if 0 < i then String.mk (List.intercalate [spaceChar] (parts.take i))
      else dateString
    | none => dateString

/-- After the digits of the time regex of extractTimePart, match
\s*(?:A|P)M case-insensitively.  \s* is greedy; the meridiem letters are
not whitespace, so consuming all whitespace is equivalent.  Returns the
full matched character run (consumed so far ++ whitespace ++ meridiem). -/
def meridiemAfter (consumed : List Char) (l : List Char) : Option (List Char) :=
  let ws := l.takeWhile isJsWhitespace
  match l.dropWhile isJsWhitespace with
  | a :: m :: _ =>
    if (a == 'A' || a == 'a' || a == 'P' || a == 'p') && (m == 'M' || m == 'm') then
      some (consumed ++ ws ++ [a, m])
    else none
  | _ => none

/-- Attempt of /(\d{1,2}:\d{2}\s*(?:A|P)M)/i at a fixed position.  The
greedy {1,2} tries two digits first; if its continuation fails, the
one-digit alternative needs the second character to be a colon, which is
impossible when it was a digit, so no further backtracking arises. -/
def timeMatchAt (l : List Char) : Option (List Char) :=
  match l with
  | c1 :: c2 :: c3 :: rest =>
    if c1.isDigit && c2.isDigit && c3 == ':' then
      match rest with
      | e1 :: e2 :: rest2 =>
        if e1.isDigit && e2.isDigit then meridiemAfter [c1, c2, c3, e1, e2] rest2
        else none
      | _ => none
    else if c1.isDigit && c2 == ':' then
      match rest with
      | e2 :: rest2 =>
        if c3.isDigit && e2.isDigit then meridiemAfter [c1, c2, c3, e2] rest2
        else none
      | [] => none
    else none
  | _ => none

/-- Leftmost match of the time regex: scan positions left to right. -/
def firstTimeMatch : List Char → Option (List Char)
  | [] => none
  | c :: rest =>
    match timeMatchAt (c :: rest) with
    | some m => some m
    | none => firstTimeMatch rest

/-- extractTimePart (dateFormatting.ts lines 513-524): first occurrence of
\d{1,2}:\d{2}\s*(?:A|P)M (trimmed), else the last two space-separated
segments rejoined (JS parts.slice(-2).join(' ')). -/
def extractTimePart (dateString : String) (format : String) : String :=
  match firstTimeMatch dateString.toList with
  | some m => String.mk (jsTrim m)
  | none =>
    let parts := splitOnChar spaceChar dateString.toList
    String.mk (List.intercalate [spaceChar] (parts.drop (parts.length - 2)))

/-- formatStartEndDates (dateFormatting.ts lines 455-483).  The end
argument is an Option to model null/undefined; the JS guard if (!end) is
also taken for the empty string, modelled by the explicit "" test.  The
function is total: malformed strings fall through the regex fallbacks and
never raise. -/
def formatStartEndDates (start : String) (endArg : Option String)
    (dateFormat : String) : String × Option String :=
  match endArg with
  | none => (start, none)
  | some e =>
    if e = "" then (start, none)
    else
      let startDatePart := extractDatePart start dateFormat
      let endDatePart := extractDatePart e dateFormat
      if startDatePart = endDatePart then (start, some (extractTimePart e dateFormat))
      else (start, some e)

-- ============================================================
-- renderScheduleToCanvas (canvasRenderer.ts lines 237-440)
-- ============================================================

/-- ParsedEvent (App.tsx): the fields read by the renderer.  endArg models
the end field (end is a reserved word); Option models null/undefined. -/
structure ParsedEvent where
  summary : String
  start : String
  endArg : Option String
  duration : Option String
  description : String
  categoryImage : Option String
deriving DecidableEq, Repr

/-- CanvasConfig (canvasRenderer.ts lines 18-23).  dpi defaults to 1 and is
never used by the renderer body, so it is omitted. -/
structure CanvasConfig where
  width : ℚ
  height : ℚ
  eventCount : ℤ
deriving DecidableEq, Repr

/-- JS truthiness of an optional string field: null/undefined and "" are
falsy. -/
def strTruthy : Option String → Bool
  | none => false
  | some s => s != ""

/-- Observable paint record of one event row: the y cursor at which the row
is painted, the text lines drawn, whether the category image was drawn, and
the height by which the cursor advances afterwards (lines 367-422). -/
structure RowPaint where
  y : ℚ
  titleLines : List String
  categoryLine : String
  startEndLine : Option String
  durationLine : Option String
  imagePainted : Bool
  height : ℚ
deriving DecidableEq, Repr

/-- Observable result of a successful render: whether the avatar was
composited, the pre-pass total (line 342-355), the starting cursor
(line 358) and the painted rows.  Header/footer text painting has no
further observable effect and is elided. -/
structure RenderResult where
  avatarPainted : Bool
  totalEventHeight : ℚ
  startY : ℚ
  rows : List RowPaint
deriving DecidableEq, Repr

/-- The filter of line 339 before the slice: keep entries that are neither
null/undefined nor have a falsy (empty) summary. -/
def filteredEvents (events : List (Option ParsedEvent)) : List ParsedEvent :=
  events.filterMap (fun e? =>
    match e? with
    | some e => if e.summary = "" then none else some e
    | none => none)

/-- Line 339: events.filter(e => e && e.summary).slice(0, 7). -/
def validEvents (events : List (Option ParsedEvent)) : List ParsedEvent :=
  (filteredEvents events).take 7

/-- Line 346: width - 240 - scaled event image width - scaled gap. -/
def eventDetailsWidth (width fitScale : ℚ) : ℚ :=
  width - 240 - scaleDimension LAYOUT.eventImageWidth fitScale
    - scaleDimension LAYOUT.eventImageGap fitScale

/-- Title block height: wrapped line count times eventTitleSize * 1.2
(lines 350-351, recomputed identically at line 418). -/
def titleBlockHeight (measure : String → ℚ) (width fitScale : ℚ)
    (summary : String) : ℚ :=
  ((wrapText measure summary (eventDetailsWidth width fitScale)).length : ℚ) *
    scaleDimension TYPOGRAPHY.eventTitleSize fitScale * 1.2

/-- Sizing pre-pass row height (lines 348-355): the metadata block is
always counted as exactly two lines (eventMetaSize * 1.3 * 2). -/
def prePassRowHeight (measure : String → ℚ) (width fitScale : ℚ)
    (event : ParsedEvent) : ℚ :=
  let titleHeight := titleBlockHeight measure width fitScale event.summary
  let metadataHeight := scaleDimension TYPOGRAPHY.eventMetaSize fitScale * 1.3 * 2
  jsMax (titleHeight + metadataHeight) (scaleDimension LAYOUT.eventImageHeight fitScale) +
    scaleDimension 16 fitScale

/-- Metadata line count of the painting loop (line 419):
2 + (showEndDate && event.end ? 1 : 0) + (showDuration && event.duration ? 1 : 0). -/
def metadataLineCount (showEndDate showDuration : Bool) (event : ParsedEvent) : ℚ :=
  2 + (if showEndDate && strTruthy event.endArg then 1 else 0) +
    (if showDuration && strTruthy event.duration then 1 else 0)

/-- Cursor advance of the painting loop (lines 417-421). -/
def paintRowHeight (measure : String → ℚ) (width fitScale : ℚ)
    (showEndDate showDuration : Bool) (event : ParsedEvent) : ℚ :=
  let titleHeight := titleBlockHeight measure width fitScale event.summary
  let metadataHeight := scaleDimension TYPOGRAPHY.eventMetaSize fitScale * 1.3 *
    metadataLineCount showEndDate showDuration event
  jsMax (titleHeight + metadataHeight) (scaleDimension LAYOUT.eventImageHeight fitScale) +
    scaleDimension 16 fitScale

/-- Line 336: contentHeight = height - 210 - scaled footerHeight - 40. -/
def contentHeight (height fitScale : ℚ) : ℚ :=
  height - 210 - scaleDimension LAYOUT.footerHeight fitScale - 40

/-- Line 358: startingY = 210 + Math.max(0, (contentHeight - totalEventHeight) / 2). -/
def startingY (height fitScale totalEventHeight : ℚ) : ℚ :=
  210 + jsMax 0 ((contentHeight height fitScale - totalEventHeight) / 2)

/-- The start/end line drawn at lines 395-401: start alone when showEndDate
is falsy; the combined range when showEndDate and an endDisplay exist;
nothing otherwise (none = no fillText call for this line). -/
def startEndLineText (showEndDate : Bool) (startDisplay : String)
    (endDisplay : Option String) : Option String :=
  if showEndDate = false then some startDisplay
  else
    match endDisplay with
    | some e => some (startDisplay ++ " - " ++ e)
    | none => none

/-- Line 392: dateFormat || 'MM-DD-YYYY hh:mm A' (empty string is falsy). -/
def dateFormatPatternOf (dateFormat : Option String) : String :=
  match dateFormat with
  | some s => if s = "" then "MM-DD-YYYY hh:mm A" else s
  | none => "MM-DD-YYYY hh:mm A"

/-- Line 387: extractCategory(event.description) || 'Stream'. -/
def categoryOf (extractCategory : String → Option String) (description : String) : String :=
  match extractCategory description with
  | some c => if c = "" then "Stream" else c
  | none => "Stream"

/-- One iteration of the painting loop (lines 367-421).  imageLoads is the
oracle telling which image URLs load successfully; a failed load is caught
at lines 412-414 and only leaves imagePainted false. -/
def paintRow (measure : String → ℚ) (imageLoads : String → Bool)
    (width fitScale : ℚ) (showEndDate showDuration : Bool)
    (dateFormat : Option String) (extractCategory : String → Option String)
    (event : ParsedEvent) (y : ℚ) : RowPaint :=
  let fse := formatStartEndDates event.start event.endArg (dateFormatPatternOf dateFormat)
  { y := y
    titleLines := wrapText measure event.summary (eventDetailsWidth width fitScale)
    categoryLine := "Playing: " ++ categoryOf extractCategory event.description
    startEndLine := startEndLineText showEndDate fse.1 fse.2
    durationLine :=
      if showDuration && strTruthy event.duration then
        some ("Duration: " ++ event.duration.getD "")
      else none
    imagePainted :=
      match event.categoryImage with
      | some url => url != "" && imageLoads url
      | none => false
    height := paintRowHeight measure width fitScale showEndDate showDuration event }

/-- The painting loop over the valid events, advancing the cursor by each
row's painted height. -/
def paintRows (measure : String → ℚ) (imageLoads : String → Bool)
    (width fitScale : ℚ) (showEndDate showDuration : Bool)
    (dateFormat : Option String) (extractCategory : String → Option String) :
    List ParsedEvent → ℚ → List RowPaint
  | [], _ => []
  | e :: rest, y =>
    let r := paintRow measure imageLoads width fitScale showEndDate showDuration
      dateFormat extractCategory e y
    r :: paintRows measure imageLoads width fitScale showEndDate showDuration
      dateFormat extractCategory rest (y + r.height)

/-- renderScheduleToCanvas (lines 237-440).  ctxOk models whether
canvas.getContext('2d') returns a context (line 256-257: if not, the call
throws and the promise rejects, modelled as Except.error).  profileLoadOk
and imageLoads model the remote image fetches; their failures are caught
(lines 283-285 and 412-414) and never escape.  Header/footer text drawing
and the subtitle have no effect on the modelled observables and are
elided. -/
def renderScheduleToCanvas (ctxOk profileLoadOk : Bool)
    (imageLoads : String → Bool) (measure : String → ℚ)
    (config : CanvasConfig) (events : List (Option ParsedEvent))
    (profileImageUrl : Option String) (extractCategory : String → Option String)
    (showEndDate showDuration : Bool) (dateFormat : Option String) :
    Except String RenderResult :=
  if ctxOk = false then Except.error "Failed to get canvas context"
  else
    let fitScale := calculateFitScale config.eventCount
    let evs := validEvents events
    let totalEventHeight := (evs.map (prePassRowHeight measure config.width fitScale)).sum
    let startY := startingY config.height fitScale totalEventHeight
    Except.ok
      { avatarPainted :=
          match profileImageUrl with
          | some u => u != "" && profileLoadOk
          | none => false
        totalEventHeight := totalEventHeight
        startY := startY
        rows := paintRows measure imageLoads config.width fitScale showEndDate
          showDuration dateFormat extractCategory evs startY }

/-- The rows of a successful render ([] on the error path). -/
def renderRows (ctxOk profileLoadOk : Bool) (imageLoads : String → Bool)
    (measure : String → ℚ) (config : CanvasConfig)
    (events : List (Option ParsedEvent)) (profileImageUrl : Option String)
    (extractCategory : String → Option String) (showEndDate showDuration : Bool)
    (dateFormat : Option String) : List RowPaint :=
  match renderScheduleToCanvas ctxOk profileLoadOk imageLoads measure config events
    profileImageUrl extractCategory showEndDate showDuration dateFormat with
  | Except.ok r => r.rows
  | Except.error _ => []

/-- The pre-pass total of a successful render (0 on the error path). -/
def renderTotalEventHeight (ctxOk profileLoadOk : Bool) (imageLoads : String → Bool)
    (measure : String → ℚ) (config : CanvasConfig)
    (events : List (Option ParsedEvent)) (profileImageUrl : Option String)
    (extractCategory : String → Option String) (showEndDate showDuration : Bool)
    (dateFormat : Option String) : ℚ :=
  match renderScheduleToCanvas ctxOk profileLoadOk imageLoads measure config events
    profileImageUrl extractCategory showEndDate showDuration dateFormat with
  | Except.ok r => r.totalEventHeight
  | Except.error _ => 0

-- ============================================================
-- Concrete inputs used in closed statements
-- ============================================================

/-- A concrete measure function: width of a string in characters. -/
def measureLen : String → ℚ := fun s => (s.length : ℚ)

/-- An entry with both an end date and a duration, whose title wraps to a
single line.  Used to exhibit the pre-pass/painting height mismatch. -/
def mismatchEvent : ParsedEvent :=
  { summary := "Hi"
    start := "11-04-2025 10:00 AM"
    endArg := some "11-04-2025 02:00 PM"
    duration := some "4h"
    description := ""
    categoryImage := none }

/-- An entry without an end date, used to exhibit the omitted start/end
line when showEndDate is set. -/
def noEndEvent : ParsedEvent :=
  { summary := "Hi"
    start := "11-04-2025 10:00 AM"
    endArg := none
    duration := none
    description := ""
    categoryImage := none }

/-- A minimal valid entry with the given summary. -/
def mkEvent (s : String) : ParsedEvent :=
  { summary := s, start := "", endArg := none, duration := none,
    description := "", categoryImage := none }

/-- Seven valid entries. -/
def sevenEvents : List (Option ParsedEvent) :=
  [some (mkEvent "a"), some (mkEvent "b"), some (mkEvent "c"), some (mkEvent "d"),
   some (mkEvent "e"), some (mkEvent "f"), some (mkEvent "g")]

-- ============================================================
-- Helper lemmas
-- ============================================================

theorem jsMax_eq_right {a b : ℚ} (h : a ≤ b) : jsMax a b = b :=
  if_pos h

theorem jsMax_eq_left {a b : ℚ} (h : ¬ a ≤ b) : jsMax a b = a :=
  if_neg h

theorem le_jsMax_left (a b : ℚ) : a ≤ jsMax a b := by
  unfold jsMax
  by_cases h : a ≤ b
  · rw [if_pos h]
    exact h
  · rw [if_neg h]

theorem wrapLoop_append_suffix (m : String → ℚ) (mw : ℚ) :
    ∀ (ws : List String) (cur : String) (lines : List String),
      ∃ s, wrapLoop m mw ws cur lines = lines ++ s := by
  intro ws
  induction ws with
  | nil =>
    intro cur lines
    by_cases h : cur = ""
    · exact ⟨[], by simp [wrapLoop, h]⟩
    · exact ⟨[cur], by simp [wrapLoop, h]⟩
  | cons w rest ih =>
    intro cur lines
    simp only [wrapLoop]
    by_cases hcond : mw < m (if cur = "" then w else cur ++ " " ++ w) ∧ cur ≠ ""
    · rw [if_pos hcond]
      obtain ⟨s, hs⟩ := ih w (lines ++ [cur])
      exact ⟨cur :: s, by rw [hs]; simp⟩
    · rw [if_neg hcond]
      exact ih _ lines

theorem wrapLoop_ne_nil_of_lines (m : String → ℚ) (mw : ℚ) (ws : List String)
    (cur : String) (lines : List String) (h : lines ≠ []) :
    wrapLoop m mw ws cur lines ≠ [] := by
  obtain ⟨s, hs⟩ := wrapLoop_append_suffix m mw ws cur lines
  rw [hs]
  intro he
  exact h (List.append_eq_nil.mp he).1

theorem str_append_ne_empty (s t : String) (h : s ≠ "") : s ++ t ≠ "" := by
  intro he
  apply h
  apply String.ext
  have hd := congrArg String.data he
  rw [String.data_append] at hd
  have h0 : String.data "" = [] := rfl
  rw [h0] at hd
  rw [(List.append_eq_nil.mp hd).1, h0]

theorem wrapLoop_ne_nil_of_cur (m : String → ℚ) (mw : ℚ) :
    ∀ (ws : List String) (cur : String) (lines : List String), cur ≠ "" →
      wrapLoop m mw ws cur lines ≠ [] := by
  intro ws
  induction ws with
  | nil =>
    intro cur lines hc
    simp [wrapLoop, hc]
  | cons w rest ih =>
    intro cur lines hc
    simp only [wrapLoop]
    by_cases hcond : mw < m (if cur = "" then w else cur ++ " " ++ w) ∧ cur ≠ ""
    · rw [if_pos hcond]
      exact wrapLoop_ne_nil_of_lines m mw rest w (lines ++ [cur]) (by simp)
    · rw [if_neg hcond]
      have ht : (if cur = "" then w else cur ++ " " ++ w) ≠ "" := by
        rw [if_neg hc]
        exact str_append_ne_empty _ _ (str_append_ne_empty _ _ hc)
      exact ih _ lines ht

theorem wrapLoop_ne_nil_of_word (m : String → ℚ) (mw : ℚ) :
    ∀ (ws : List String) (cur : String) (lines : List String),
      (∃ w ∈ ws, w ≠ "") → wrapLoop m mw ws cur lines ≠ [] := by
  intro ws
  induction ws with
  | nil =>
    intro cur lines h
    obtain ⟨w, hw, _⟩ := h
    exact absurd hw (List.not_mem_nil w)
  | cons w rest ih =>
    intro cur lines h
    by_cases hc : cur = ""
    · simp only [wrapLoop]
      have hcond : ¬(mw < m (if cur = "" then w else cur ++ " " ++ w) ∧ cur ≠ "") :=
        fun hx => hx.2 hc
      rw [if_neg hcond, if_pos hc]
      by_cases hw0 : w = ""
      · apply ih
        obtain ⟨w', hw', hne⟩ := h
        refine ⟨w', ?_, hne⟩
        rcases List.mem_cons.mp hw' with heq | hmem
        · exact absurd (heq.trans hw0) hne
        · exact hmem
      · exact wrapLoop_ne_nil_of_cur m mw rest w lines hw0
    · exact wrapLoop_ne_nil_of_cur m mw (w :: rest) cur lines hc

theorem wrapLoop_mem_bound (m : String → ℚ) (mw : ℚ) (W : List String) :
    ∀ (ws : List String) (cur : String) (lines : List String),
      (∀ w ∈ ws, w ∈ W) →
      (cur = "" ∨ m cur ≤ mw ∨ cur ∈ W) →
      (∀ l ∈ lines, m l ≤ mw ∨ l ∈ W) →
      ∀ l ∈ wrapLoop m mw ws cur lines, m l ≤ mw ∨ l ∈ W := by
  intro ws
  induction ws with
  | nil =>
    intro cur lines _ hcur hlines l hl
    by_cases hc : cur = ""
    · simp only [wrapLoop, if_pos hc] at hl
      exact hlines l hl
    · simp only [wrapLoop, if_neg hc] at hl
      rcases List.mem_append.mp hl with h1 | h2
      · exact hlines l h1
      · have hl2 : l = cur := by simpa using h2
        subst hl2
        rcases hcur with h | h
        · exact absurd h hc
        · exact h
  | cons w rest ih =>
    intro cur lines hws hcur hlines l hl
    have hwW : w ∈ W := hws w (List.mem_cons_self w rest)
    have hrest : ∀ x ∈ rest, x ∈ W := fun x hx => hws x (List.mem_cons_of_mem w hx)
    simp only [wrapLoop] at hl
    by_cases hcond : mw < m (if cur = "" then w else cur ++ " " ++ w) ∧ cur ≠ ""
    · rw [if_pos hcond] at hl
      refine ih w (lines ++ [cur]) hrest (Or.inr (Or.inr hwW)) ?_ l hl
      intro x hx
      rcases List.mem_append.mp hx with h1 | h2
      · exact hlines x h1
      · have hx2 : x = cur := by simpa using h2
        subst hx2
        rcases hcur with h | h
        · exact absurd h hcond.2
        · exact h
    · rw [if_neg hcond] at hl
      refine ih _ lines hrest ?_ hlines l hl
      by_cases hc : cur = ""
      · rw [if_pos hc]
        exact Or.inr (Or.inr hwW)
      · rw [if_neg hc]
        push_neg at hcond
        have hnlt : ¬ mw < m (cur ++ " " ++ w) := by
          intro hlt
          exact hc (hcond (by rwa [if_neg hc]))
        exact Or.inr (Or.inl (le_of_not_lt hnlt))

theorem paintRows_length (measure : String → ℚ) (il : String → Bool) (w fs : ℚ)
    (sE sD : Bool) (dF : Option String) (ec : String → Option String) :
    ∀ (evs : List ParsedEvent) (y : ℚ),
      (paintRows measure il w fs sE sD dF ec evs y).length = evs.length := by
  intro evs
  induction evs with
  | nil => intro y; rfl
  | cons e rest ih => intro y; simp [paintRows, ih]

theorem paintRows_no_image (measure : String → ℚ) (w fs : ℚ) (sE sD : Bool)
    (dF : Option String) (ec : String → Option String) :
    ∀ (evs : List ParsedEvent) (y : ℚ),
      (paintRows measure (fun _ => false) w fs sE sD dF ec evs y).all
        (fun row => row.imagePainted == false) = true := by
  intro evs
  induction evs with
  | nil => intro y; rfl
  | cons e rest ih =>
    intro y
    simp only [paintRows, List.all_cons, ih, Bool.and_true]
    simp only [paintRow]
    cases e.categoryImage <;> simp

theorem validEvents_append_of_length {events : List (Option ParsedEvent)}
    (tail : List (Option ParsedEvent)) (h : 7 ≤ (filteredEvents events).length) :
    validEvents (events ++ tail) = validEvents events := by
  unfold validEvents filteredEvents
  unfold filteredEvents at h
  rw [List.filterMap_append]
  exact List.take_append_of_le_length h

-- ============================================================
-- Claim theorems
-- ============================================================

/-- C1 (code bug evidence): the sizing pre-pass and the per-row cursor
advance do NOT compute the same row height.  At this concrete input (one
entry with an end date and a duration, showEndDate and showDuration both
set), the pre-pass total used to center the block counts two metadata
lines while the painting cursor advances by four, so the summed totalHeight
differs from the sum of the painted row heights. -/
theorem prePass_total_ne_painted_total :
    renderTotalEventHeight true true (fun _ => true) measureLen ⟨1080, 1350, 1⟩
        [some mismatchEvent] none (fun _ => none) true true none ≠
      ((renderRows true true (fun _ => true) measureLen ⟨1080, 1350, 1⟩
        [some mismatchEvent] none (fun _ => none) true true none).map
          RowPaint.height).sum := by
  with_unfolding_all decide

/-- C2 (code bug evidence): with showEndDate set and an entry that has no
end, the painted row contains no start/end line at all (the code draws
neither the combined range nor the start string), contradicting the
documented behavior that the start string alone is drawn. -/
theorem startEnd_line_omitted :
    (renderRows true true (fun _ => true) measureLen ⟨1080, 1350, 1⟩ [some noEndEvent]
        none (fun _ => none) true false none).map RowPaint.startEndLine = [none] ∧
      startEndLineText true "11-04-2025 10:00 AM" none = none := by
  constructor
  · decide
  · rfl

/-- C3: the render fails exactly when context allocation fails; for every
choice of image-load outcomes the render with a context succeeds, every
valid entry still gets a painted row, and with every image load failing the
rows are simply painted without their images. -/
theorem render_error_iff_ctx_failure :
    ∀ (profileLoadOk : Bool) (imageLoads : String → Bool) (measure : String → ℚ)
      (config : CanvasConfig) (events : List (Option ParsedEvent))
      (profileImageUrl : Option String) (extractCategory : String → Option String)
      (showEndDate showDuration : Bool) (dateFormat : Option String),
      renderScheduleToCanvas false profileLoadOk imageLoads measure config events
          profileImageUrl extractCategory showEndDate showDuration dateFormat =
        Except.error "Failed to get canvas context" ∧
      (∃ r, renderScheduleToCanvas true profileLoadOk imageLoads measure config events
          profileImageUrl extractCategory showEndDate showDuration dateFormat =
        Except.ok r ∧ r.rows.length = (validEvents events).length) ∧
      (renderRows true profileLoadOk (fun _ => false) measure config events
          profileImageUrl extractCategory showEndDate showDuration dateFormat).all
        (fun row => row.imagePainted == false) = true := by
  intro pl il m cfg events piu ec sE sD dF
  refine ⟨rfl, ⟨_, rfl, ?_⟩, ?_⟩
  · exact paintRows_length m il cfg.width (calculateFitScale cfg.eventCount) sE sD dF ec
      (validEvents events) _
  · exact paintRows_no_image m cfg.width (calculateFitScale cfg.eventCount) sE sD dF ec
      (validEvents events)
      (startingY cfg.height (calculateFitScale cfg.eventCount)
        ((validEvents events).map
          (prePassRowHeight m cfg.width (calculateFitScale cfg.eventCount))).sum)

/-- C4 counterexample: the single-space string is a non-empty input for
which wrapText returns the empty array (every word of the split is empty,
so no line is ever committed). -/
theorem wrapText_empty_on_spaces :
    " " ≠ "" ∧ wrapText (fun _ => 0) " " 100 = [] := by
  constructor
  · decide
  · decide

/-- C4 (amended): for every input string containing at least one non-empty
word (equivalently, at least one non-space character), every width budget
and every measure function, wrapText returns a non-empty array of lines. -/
theorem wrapText_ne_nil_of_nonempty_word (measure : String → ℚ) (text : String)
    (maxWidth : ℚ) (h : ∃ w ∈ jsWords text, w ≠ "") :
    wrapText measure text maxWidth ≠ [] :=
  wrapLoop_ne_nil_of_word measure maxWidth (jsWords text) "" [] h

/-- C4 witness: the amended theorem applied at a concrete input. -/
theorem wrapText_ne_nil_of_nonempty_word_witness :
    (∃ w ∈ jsWords "hi", w ≠ "") ∧ wrapText measureLen "hi" 10 ≠ [] :=
  ⟨by decide, wrapText_ne_nil_of_nonempty_word measureLen "hi" 10 (by decide)⟩

/-- C5: every line returned by wrapText either measures within the width
budget (with the same measure used when it was formed) or is a single word
of the input split, placed alone and unsplit on its line. -/
theorem wrapText_line_bound (measure : String → ℚ) (text : String) (maxWidth : ℚ) :
    ∀ line ∈ wrapText measure text maxWidth,
      measure line ≤ maxWidth ∨ line ∈ jsWords text := by
  intro line hline
  exact wrapLoop_mem_bound measure maxWidth (jsWords text) (jsWords text) "" []
    (fun w hw => hw) (Or.inl rfl) (fun l hl => absurd hl (List.not_mem_nil l))
    line hline

/-- C5 witness: the theorem applied at a concrete oversized word. -/
theorem wrapText_line_bound_witness :
    ("hello" ∈ wrapText measureLen "hello world" 3) ∧
      (measureLen "hello" ≤ 3 ∨ "hello" ∈ jsWords "hello world") :=
  ⟨by decide, wrapText_line_bound measureLen "hello world" 3 "hello" (by decide)⟩

/-- C6 counterexample: the 0.5 floor does not hold for every entry count
above 7: at entryCount = 8 the formula gives 0.95 - 7 * 0.06 = 0.53. -/
theorem calculateFitScale_floor_counterexample :
    (7 : ℤ) < 8 ∧ calculateFitScale 8 ≠ 0.5 := by
  constructor
  · decide
  · with_unfolding_all decide

/-- C6 (amended): calculateFitScale(1) = 0.95, calculateFitScale(7) = 0.59,
calculateFitScale(8) = 0.53, and the 0.5 floor holds for every entry count
of at least 9 (not for every count above 7). -/
theorem calculateFitScale_values :
    calculateFitScale 1 = 0.95 ∧ calculateFitScale 7 = 0.59 ∧
      calculateFitScale 8 = 0.53 ∧ ∀ n : ℤ, 9 ≤ n → calculateFitScale n = 0.5 := by
  refine ⟨by with_unfolding_all decide, by with_unfolding_all decide,
    by with_unfolding_all decide, ?_⟩
  intro n hn
  have hn' : (9 : ℚ) ≤ (n : ℚ) := by exact_mod_cast hn
  have hle : (0.95 - ((n : ℚ) - 1) * 0.06) ≤ 0.5 := by linarith
  unfold calculateFitScale
  exact jsMax_eq_right hle

/-- C6 witness: the floor at a concrete entry count beyond 8. -/
theorem calculateFitScale_values_witness :
    (9 : ℤ) ≤ 100 ∧ calculateFitScale 100 = 0.5 :=
  ⟨by decide, calculateFitScale_values.2.2.2 100 (by decide)⟩

/-- C7: when the extracted date parts of start and end agree, the end
display collapses to the extracted time token of the end string; otherwise
the end string is passed through unchanged; and the documented concrete
example evaluates exactly as stated. -/
theorem formatStartEndDates_same_day :
    (∀ start e fmt, e ≠ "" →
        extractDatePart start fmt = extractDatePart e fmt →
        formatStartEndDates start (some e) fmt = (start, some (extractTimePart e fmt))) ∧
    (∀ start e fmt, e ≠ "" →
        extractDatePart start fmt ≠ extractDatePart e fmt →
        formatStartEndDates start (some e) fmt = (start, some e)) ∧
    formatStartEndDates "11-04-2025 10:00 AM" (some "11-04-2025 02:00 PM")
        "MM-DD-YYYY hh:mm A" = ("11-04-2025 10:00 AM", some "02:00 PM") := by
  refine ⟨?_, ?_, by decide⟩
  · intro start e fmt he heq
    simp [formatStartEndDates, he, heq]
  · intro start e fmt he hne
    simp [formatStartEndDates, he, hne]

/-- C7 witness: the same-day branch applied at a concrete input. -/
theorem formatStartEndDates_same_day_witness :
    ("a 2:00 PM" ≠ "" ∧
        extractDatePart "a 1:00 AM" "f" = extractDatePart "a 2:00 PM" "f") ∧
      formatStartEndDates "a 1:00 AM" (some "a 2:00 PM") "f" =
        ("a 1:00 AM", some (extractTimePart "a 2:00 PM" "f")) :=
  ⟨⟨by decide, by decide⟩,
    formatStartEndDates_same_day.1 "a 1:00 AM" "a 2:00 PM" "f" (by decide) (by decide)⟩

/-- C8: formatStartEndDates is a total function (it never throws; malformed
strings only fall through the pattern fallbacks), startDisplay always
equals the start argument unchanged, and an absent end yields (start,
none). -/
theorem formatStartEndDates_total :
    (∀ (start : String) (endArg : Option String) (fmt : String),
        (formatStartEndDates start endArg fmt).1 = start) ∧
    (∀ (start fmt : String), formatStartEndDates start none fmt = (start, none)) := by
  constructor
  · intro start endArg fmt
    cases endArg with
    | none => rfl
    | some e =>
      by_cases he : e = ""
      · simp [formatStartEndDates, he]
      · by_cases heq : extractDatePart start fmt = extractDatePart e fmt <;>
          simp [formatStartEndDates, he, heq]
  · intro start fmt
    rfl

/-- C9: the block of rows starts at contentTop + max(0, (available -
total) / 2): centered when it fits, pinned to the top of the band (offset
exactly 0, never negative) when it overflows, and the render always
completes with every valid row painted, the start cursor given by this
formula. -/
theorem startingY_centering :
    (∀ h fs t : ℚ, t ≤ contentHeight h fs →
        startingY h fs t = 210 + (contentHeight h fs - t) / 2) ∧
    (∀ h fs t : ℚ, contentHeight h fs < t → startingY h fs t = 210) ∧
    (∀ h fs t : ℚ, 210 ≤ startingY h fs t) ∧
    (∀ (profileLoadOk : Bool) (imageLoads : String → Bool) (measure : String → ℚ)
        (config : CanvasConfig) (events : List (Option ParsedEvent))
        (profileImageUrl : Option String) (extractCategory : String → Option String)
        (sE sD : Bool) (dF : Option String),
      ∃ r, renderScheduleToCanvas true profileLoadOk imageLoads measure config events
          profileImageUrl extractCategory sE sD dF = Except.ok r ∧
        r.startY = startingY config.height (calculateFitScale config.eventCount)
          r.totalEventHeight ∧
        r.rows.length = (validEvents events).length) := by
  refine ⟨?_, ?_, ?_, ?_⟩
  · intro h fs t ht
    unfold startingY
    rw [jsMax_eq_right (by linarith : (0 : ℚ) ≤ (contentHeight h fs - t) / 2)]
  · intro h fs t ht
    unfold startingY
    rw [jsMax_eq_left (not_le.mpr (by linarith : (contentHeight h fs - t) / 2 < 0))]
    norm_num
  · intro h fs t
    unfold startingY
    have := le_jsMax_left (0 : ℚ) ((contentHeight h fs - t) / 2)
    linarith
  · intro pl il m cfg events piu ec sE sD dF
    exact ⟨_, rfl, rfl,
      paintRows_length m il cfg.width (calculateFitScale cfg.eventCount) sE sD dF ec
        (validEvents events) _⟩

/-- C9 witness: the centered branch applied at a concrete input. -/
theorem startingY_centering_witness :
    ((0 : ℚ) ≤ contentHeight 1350 0.95 ∧
      startingY 1350 0.95 0 = 210 + (contentHeight 1350 0.95 - 0) / 2) :=
  ⟨by with_unfolding_all decide,
    startingY_centering.1 1350 0.95 0 (by with_unfolding_all decide)⟩

/-- C10: the renderer sanitizes its own input: at most 7 rows are ever
painted, every painted entry comes from the input with a non-empty summary,
and once 7 valid entries are present, appending further entries changes
neither the painted rows nor the pre-pass total height. -/
theorem renderer_sanitizes_input :
    (∀ events, (validEvents events).length ≤ 7) ∧
    (∀ events, ∀ e ∈ validEvents events, e.summary ≠ "" ∧ some e ∈ events) ∧
    (∀ (profileLoadOk : Bool) (imageLoads : String → Bool) (measure : String → ℚ)
        (config : CanvasConfig) (events tail : List (Option ParsedEvent))
        (profileImageUrl : Option String) (extractCategory : String → Option String)
        (sE sD : Bool) (dF : Option String),
      7 ≤ (filteredEvents events).length →
      renderRows true profileLoadOk imageLoads measure config (events ++ tail)
          profileImageUrl extractCategory sE sD dF =
        renderRows true profileLoadOk imageLoads measure config events
          profileImageUrl extractCategory sE sD dF ∧
      renderTotalEventHeight true profileLoadOk imageLoads measure config (events ++ tail)
          profileImageUrl extractCategory sE sD dF =
        renderTotalEventHeight true profileLoadOk imageLoads measure config events
          profileImageUrl extractCategory sE sD dF) := by
  refine ⟨?_, ?_, ?_⟩
  · intro events
    unfold validEvents
    exact List.length_take_le 7 _
  · intro events e he
    unfold validEvents at he
    have he' := List.take_subset 7 _ he
    unfold filteredEvents at he'
    obtain ⟨x, hx, hfx⟩ := List.mem_filterMap.mp he'
    cases x with
    | none => simp at hfx
    | some e' =>
      by_cases hs : e'.summary = ""
      · simp [hs] at hfx
      · simp only [if_neg hs, Option.some.injEq] at hfx
        subst hfx
        exact ⟨hs, hx⟩
  · intro pl il m cfg events tail piu ec sE sD dF h
    have hv := validEvents_append_of_length tail h
    have hr : renderScheduleToCanvas true pl il m cfg (events ++ tail) piu ec sE sD dF =
        renderScheduleToCanvas true pl il m cfg events piu ec sE sD dF := by
      unfold renderScheduleToCanvas
      rw [hv]
    constructor
    · unfold renderRows
      rw [hr]
    · unfold renderTotalEventHeight
      rw [hr]

/-- C10 witness: appending an eighth entry after seven valid ones leaves
the painted rows unchanged. -/
theorem renderer_sanitizes_input_witness :
    7 ≤ (filteredEvents sevenEvents).length ∧
      renderRows true true (fun _ => true) measureLen ⟨1080, 1350, 7⟩
          (sevenEvents ++ [some (mkEvent "h")]) none (fun _ => none) true true none =
        renderRows true true (fun _ => true) measureLen ⟨1080, 1350, 7⟩ sevenEvents
          none (fun _ => none) true true none :=
  ⟨by decide,
    (renderer_sanitizes_input.2.2 true (fun _ => true) measureLen ⟨1080, 1350, 7⟩
      sevenEvents [some (mkEvent "h")] none (fun _ => none) true true none (by decide)).1⟩
